import Mathlib

/-!
Shallow embedding of the core of the `spawn_groups` structured-concurrency
library, with theorems settling the specification claims about it.

Each definition transcribes one Rust item from the repository; the file path
and item are named in the doc comment.  Stateful code is modeled by explicit
state passing; machine integers are `Nat` with explicit wrapping where the
source can overflow (`usize` arithmetic); blocking operations are modeled by
distinguished result values or, where a call may never return, by `Option`.
-/

namespace SpawnGroups

/-! ## Priorities

Transcribed from `src/shared/priority.rs` and
`src/threadpool_impl/task_priority.rs`. -/

/-- The public `Priority` enum (src/shared/priority.rs): a fieldless Rust enum
with explicit first discriminant `BACKGROUND = 0` and implicit successors, so
the derived `PartialOrd`/`Ord` compare discriminants `0..=5`.
`MEDIUM` carries the `#[default]` attribute. -/
inductive Priority where
  | BACKGROUND
  | LOW
  | UTILITY
  | MEDIUM
  | HIGH
  | USERINITIATED
  deriving DecidableEq, Fintype

/-- Rust discriminant of each `Priority` variant. -/
def Priority.toNat : Priority → Nat
  | .BACKGROUND => 0
  | .LOW => 1
  | .UTILITY => 2
  | .MEDIUM => 3
  | .HIGH => 4
  | .USERINITIATED => 5

/-- The `#[default]` variant of `Priority`. -/
def Priority.defaultValue : Priority := .MEDIUM

/-- Derived `<` on `Priority` (discriminant order). -/
abbrev priorityLt (p q : Priority) : Prop := p.toNat < q.toNat

/-- The internal `TaskPriority` enum (src/threadpool_impl/task_priority.rs):
declaration order `Wait, Background, ..., UserInitiated`, derived
`PartialOrd`/`Ord` compare the implicit discriminants `0..=6`. -/
inductive TaskPriority where
  | Wait
  | Background
  | Low
  | Utility
  | Medium
  | High
  | UserInitiated
  deriving DecidableEq, Fintype

/-- Rust discriminant of each `TaskPriority` variant. -/
def TaskPriority.toNat : TaskPriority → Nat
  | .Wait => 0
  | .Background => 1
  | .Low => 2
  | .Utility => 3
  | .Medium => 4
  | .High => 5
  | .UserInitiated => 6

/-- Derived `<` on `TaskPriority` (discriminant order). -/
abbrev tpLt (p q : TaskPriority) : Prop := p.toNat < q.toNat

/-- Derived `Ord::cmp` on `TaskPriority` (discriminant comparison). -/
def tpCompare (a b : TaskPriority) : Ordering := compare a.toNat b.toNat

/-- Models `impl From<Priority> for TaskPriority` (src/threadpool_impl/task_priority.rs). -/
def TaskPriority.fromPriority : Priority → TaskPriority
  | .BACKGROUND => .Background
  | .LOW => .Low
  | .UTILITY => .Utility
  | .MEDIUM => .Medium
  | .HIGH => .High
  | .USERINITIATED => .UserInitiated

/-! ## PrioritizedTask

Transcribed from `src/shared/priority_task.rs`.  The `task` payload
(`TaskOrBarrier<T>`) takes no part in comparisons; it is kept as an opaque
field of an arbitrary type. -/

/-- Models `PrioritizedTask<T>`: a task payload together with its `TaskPriority`. -/
structure PrioritizedTask (α : Type) where
  task : α
  priority : TaskPriority
  deriving DecidableEq

/-- Models `impl<T> Ord for PrioritizedTask<T>`:
`fn cmp(&self, other) { other.priority.cmp(&self.priority) }`. -/
def PrioritizedTask.cmp (a b : PrioritizedTask α) : Ordering :=
  tpCompare b.priority a.priority

/-- Models `impl<T> PartialOrd for PrioritizedTask<T>`:
`fn partial_cmp(&self, other) { Some(other.cmp(self)) }`
(models `partial_cmp`). -/
def PrioritizedTask.partCmp (a b : PrioritizedTask α) : Option Ordering :=
  some (PrioritizedTask.cmp b a)

lemma tpCompare_swap_eq : ∀ x y : TaskPriority, tpCompare x y = (tpCompare y x).swap := by
  decide

lemma tpCompare_comm_iff : ∀ x y : TaskPriority, tpCompare x y = tpCompare y x ↔ x = y := by
  decide

/-- C9: the public `Priority` type is a totally ordered enumeration of exactly
six levels with `BACKGROUND < LOW < UTILITY < MEDIUM < HIGH < USERINITIATED`
and default `MEDIUM`; the conversion to the internal `TaskPriority` is
strictly order-preserving, and the internal `Wait` level sits strictly below
every converted user level. -/
theorem c9_priority_total_order :
    Fintype.card Priority = 6 ∧
    (priorityLt .BACKGROUND .LOW ∧ priorityLt .LOW .UTILITY ∧
     priorityLt .UTILITY .MEDIUM ∧ priorityLt .MEDIUM .HIGH ∧
     priorityLt .HIGH .USERINITIATED) ∧
    (∀ p q : Priority, priorityLt p q ∨ p = q ∨ priorityLt q p) ∧
    (∀ p q : Priority, priorityLt p q → ¬ priorityLt q p) ∧
    Priority.defaultValue = Priority.MEDIUM ∧
    (∀ p q : Priority,
      priorityLt p q ↔ tpLt (TaskPriority.fromPriority p) (TaskPriority.fromPriority q)) ∧
    (∀ p : Priority, tpLt TaskPriority.Wait (TaskPriority.fromPriority p)) := by
  refine ⟨by decide, by decide, by decide, by decide, rfl, by decide, by decide⟩

/-- C10 counterexample: for the prioritized tasks `a` (priority `Low`) and `b`
(priority `High`), `a.partial_cmp(b)` is `Some(Less)` while `a.cmp(b)` is
`Greater`, so `a.partial_cmp(b) ≠ Some(a.cmp(b))`: the `PartialOrd`
implementation is not consistent with the `Ord` implementation. -/
theorem c10_counterexample :
    PrioritizedTask.partCmp (⟨(), .Low⟩ : PrioritizedTask Unit) ⟨(), .High⟩ =
      some Ordering.lt ∧
    PrioritizedTask.cmp (⟨(), .Low⟩ : PrioritizedTask Unit) ⟨(), .High⟩ =
      Ordering.gt ∧
    PrioritizedTask.partCmp (⟨(), .Low⟩ : PrioritizedTask Unit) ⟨(), .High⟩ ≠
      some (PrioritizedTask.cmp (⟨(), .Low⟩ : PrioritizedTask Unit) ⟨(), .High⟩) := by
  refine ⟨rfl, rfl, by decide⟩

/-- C10 (amended): `a.partial_cmp(b)` equals `Some(a.cmp(b).reverse())`, not
`Some(a.cmp(b))` — the two comparators rank by priority in opposite
directions, and they agree exactly when the two priorities are equal. -/
theorem c10_partCmp_reversed {α : Type} (a b : PrioritizedTask α) :
    PrioritizedTask.partCmp a b = some (PrioritizedTask.cmp a b).swap ∧
    (PrioritizedTask.partCmp a b = some (PrioritizedTask.cmp a b) ↔
      a.priority = b.priority) := by
  constructor
  · unfold PrioritizedTask.partCmp PrioritizedTask.cmp
    rw [tpCompare_swap_eq]
  · unfold PrioritizedTask.partCmp PrioritizedTask.cmp
    constructor
    · intro h
      have h2 : tpCompare a.priority b.priority = tpCompare b.priority a.priority :=
        Option.some_injective _ h
      exact (tpCompare_comm_iff a.priority b.priority).mp h2
    · intro h
      rw [h]

/-! ## PriorityQueue (worker inbox heap)

Transcribed from `src/threadpool_impl/queue.rs`.  The `VecDeque<T>` storage is
modeled as a `List`; `push_back` appends, `pop_front` removes the head,
`swap i j` exchanges two positions.  The Rust code only indexes in bounds;
out-of-bounds access (which would panic) is modeled as a no-op comparison /
no-op swap, and is never exercised by the concrete inputs below. -/

/-- Models `VecDeque::swap(i, j)` on a list. -/
def listSwap (l : List α) (i j : Nat) : List α :=
  match l[i]?, l[j]? with
  | some a, some b => (l.set i b).set j a
  | _, _ => l

/-- Apply the stored comparator to `storage[i]` and `storage[j]`. -/
def cmpAt (cmpFn : α → α → Bool) (st : List α) (i j : Nat) : Bool :=
  match st[i]?, st[j]? with
  | some a, some b => cmpFn a b
  | _, _ => false

/-- Models `PriorityQueue::up_heap`: while `the_idx > 0`, compare with
`parent_idx = the_idx / 2` (note: 1-based parent formula over the 0-based
storage), swap while the comparator approves, else break. -/
def upHeapF (cmpFn : α → α → Bool) (st : List α) (idx : Nat) : Nat → List α
  | 0 => st
  | fuel + 1 =>
    if 0 < idx then
      if cmpAt cmpFn st idx (idx / 2) then
        upHeapF cmpFn (listSwap st idx (idx / 2)) (idx / 2) fuel
      else st
    else st

/-- Models `up_heap(idx)` with enough fuel: `the_idx` strictly decreases
(`idx / 2 < idx` for `idx > 0`), so `idx + 1` iterations always suffice. -/
def upHeap (cmpFn : α → α → Bool) (st : List α) (idx : Nat) : List α :=
  upHeapF cmpFn st idx (idx + 1)

/-- Models `PriorityQueue::down_heap`: loop from `the_idx` with children
`2 * the_idx` and `2 * the_idx + 1` (again 1-based formulas on 0-based
storage); break once the left child index is out of range or no child wins
the comparison.  The loop strictly increases `the_idx` (bounded by the
length), so `fuel = length + 1` never runs out and the fuel-free semantics of
the source loop is preserved. -/
def downHeap (cmpFn : α → α → Bool) (st : List α) (idx : Nat) : Nat → List α
  | 0 => st
  | fuel + 1 =>
    if 2 * idx ≥ st.length then st
    else
      let largest1 := if cmpAt cmpFn st (2 * idx) idx then 2 * idx else idx
      let largest2 :=
        if 2 * idx + 1 < st.length ∧ cmpAt cmpFn st (2 * idx + 1) largest1 = true then
          2 * idx + 1
        else largest1
      if largest2 = idx then st
      else downHeap cmpFn (listSwap st idx largest2) largest2 fuel

/-- Models `PriorityQueue<T>` (src/threadpool_impl/queue.rs): `VecDeque` storage plus
the comparison function supplied at construction. -/
structure PriorityQueue (α : Type) where
  storage : List α
  compareFn : α → α → Bool

/-- Models `PriorityQueue::new(compare)`. -/
def PriorityQueue.new (cmpFn : α → α → Bool) : PriorityQueue α := ⟨[], cmpFn⟩

/-- Models `PriorityQueue::push`: `push_back` then `up_heap(len - 1)`. -/
def PriorityQueue.push (pq : PriorityQueue α) (v : α) : PriorityQueue α :=
  let st := pq.storage ++ [v]
  { pq with storage := upHeap pq.compareFn st (st.length - 1) }

/-- Models `PriorityQueue::pop`: return `None` if empty, else `pop_front` the head
and, if items remain, run `down_heap(0)` on the shifted storage. -/
def PriorityQueue.pop (pq : PriorityQueue α) : Option α × PriorityQueue α :=
  match pq.storage with
  | [] => (none, pq)
  | x :: rest =>
    if rest.isEmpty then (some x, { pq with storage := rest })
    else (some x, { pq with storage := downHeap pq.compareFn rest 0 (rest.length + 1) })

/-- The comparator installed by `Inner::new` in
`src/threadpool_impl/eventloop.rs`: `lhs.priority() > rhs.priority()` on the
derived `TaskPriority` order. -/
def taskGtFn (l r : PrioritizedTask Unit) : Bool :=
  decide (r.priority.toNat < l.priority.toNat)

/-- A worker inbox after pushing six prioritized tasks with priorities
`[Low, Low, High, High, High, High]` (in that order) into a fresh queue. -/
def inboxAfterPushes : PriorityQueue (PrioritizedTask Unit) :=
  ([.Low, .Low, .High, .High, .High, .High] : List TaskPriority).foldl
    (fun pq p => pq.push ⟨(), p⟩) (PriorityQueue.new taskGtFn)

/-- Pop `k` times, collecting the returned values and the final queue. -/
def popSeq (pq : PriorityQueue α) : Nat → List (Option α) × PriorityQueue α
  | 0 => ([], pq)
  | k + 1 =>
    let r := pq.pop
    let rr := popSeq r.2 k
    (r.1 :: rr.1, rr.2)

/-- C1: after pushing priorities `[Low, Low, High, High, High, High]` into a
fresh inbox, the fourth pop returns the `Low`-priority task even though a
`High`-priority task is still stored at that moment (it is still in the queue
after three pops, each of which returned `High`).  `pop` therefore does not
always return an item of maximal stored priority: the heap uses 1-based
parent/child index formulas over 0-based storage and removes the front with
`pop_front`, shifting every index before a single `down_heap(0)` pass. -/
theorem c1_pop_returns_low_while_high_stored :
    (popSeq inboxAfterPushes 4).1 =
      [some ⟨(), .High⟩, some ⟨(), .High⟩, some ⟨(), .High⟩, some ⟨(), .Low⟩] ∧
    (⟨(), TaskPriority.High⟩ : PrioritizedTask Unit) ∈ (popSeq inboxAfterPushes 3).2.storage := by
  refine ⟨rfl, by decide⟩

/-! ## Indexer (round-robin dispatch)

Transcribed from `src/threadpool_impl/index.rs`. -/

/-- The value `2^64`, the modulus of `usize` arithmetic on a 64-bit target. -/
def USIZE_MOD : Nat := 2 ^ 64

/-- Models `Indexer` (src/threadpool_impl/index.rs): an atomic counter plus
`last_index = count - 1` fixed at construction. -/
structure Indexer where
  index : Nat
  lastIndex : Nat
  deriving DecidableEq

/-- Models `Indexer::new(count)`. -/
def Indexer.new (count : Nat) : Indexer := ⟨0, count - 1⟩

/-- Models `Indexer::next`: `compare_exchange(last_index, 0)` — if the stored index
equals `last_index`, reset it to 0 and return 0; otherwise `fetch_add(1)`
returns the previous value (wrapping `usize` increment). -/
def Indexer.next (s : Indexer) : Nat × Indexer :=
  if s.index = s.lastIndex then (0, { s with index := 0 })
  else (s.index, { s with index := (s.index + 1) % USIZE_MOD })

/-- Emit the first `k` values produced by successive `next` calls. -/
def indexerRun (s : Indexer) : Nat → List Nat
  | 0 => []
  | k + 1 =>
    let r := s.next
    r.1 :: indexerRun r.2 k

/-- The worker indices chosen for the first `k` submissions to a pool of
`count` workers. -/
def indexerOutputs (count k : Nat) : List Nat :=
  indexerRun (Indexer.new count) k

/-- C5: with `N = 3` workers the first six submissions go to workers
`[0, 1, 0, 0, 1, 0]`, not to `[0, 1, 2, 0, 1, 2]` as round-robin placement
`k mod N` requires; worker `2` receives none of the first twelve submissions,
and with `N = 2` every submission goes to worker 0.  The `compare_exchange`
in `Indexer::next` fires exactly when the counter has reached `last_index =
N - 1` and returns 0 instead of `N - 1`, so worker `N - 1` is never chosen. -/
theorem c5_indexer_skips_last_worker :
    indexerOutputs 3 6 = [0, 1, 0, 0, 1, 0] ∧
    indexerOutputs 3 6 ≠ [0, 1, 2, 0, 1, 2] ∧
    (2 : Nat) ∉ indexerOutputs 3 12 ∧
    indexerOutputs 2 6 = [0, 0, 0, 0, 0, 0] := by
  refine ⟨rfl, by decide, by decide, rfl⟩

/-! ## Channel (worker channel)

Transcribed from `src/threadpool_impl/channel.rs` (`Inner<ItemType>`). The
`Condvar` notifications (`notify_one` on enqueue of a first item, `notify_all`
on close) carry no state and are elided; the lock is modeled as exclusive
access to the state. -/

/-- Models `Inner<ItemType>`: the `closed` atomic flag and the `VecDeque` contents. -/
structure Channel (α : Type) where
  closed : Bool
  queue : List α
  deriving DecidableEq

/-- Result of `Inner::dequeue`. `closedNone` is the `None` returned on a
closed channel; `blocked` marks the open-and-empty case in which the source
loops on `Condvar::wait` (ended only by a later close or enqueue). -/
inductive DequeueRes (α : Type) where
  | value : α → DequeueRes α
  | closedNone : DequeueRes α
  | blocked : DequeueRes α
  deriving DecidableEq

/-- Models `Inner::new()`. -/
def Channel.new : Channel α := ⟨false, []⟩

/-- Models `Inner::enqueue`: early-return (dropping the value) if closed, else
`push_back`. -/
def Channel.enqueue (c : Channel α) (v : α) : Channel α :=
  if c.closed then c else { c with queue := c.queue ++ [v] }

/-- Models `Inner::dequeue`: `None` if closed; while empty, re-check closed and
wait (modeled as `blocked`); else `pop_front`. -/
def Channel.dequeue (c : Channel α) : DequeueRes α × Channel α :=
  if c.closed then (.closedNone, c)
  else
    match c.queue with
    | [] => (.blocked, c)
    | x :: rest => (.value x, { c with queue := rest })

/-- Models `Inner::close`: `swap(true)` on the closed flag (early-return when
already closed), take the lock and `notify_all`.  The queue contents are not
touched. -/
def Channel.close (c : Channel α) : Channel α :=
  if c.closed then c else { c with closed := true }

/-- Models `Inner::clear`: empty the queue; the closed flag is not touched. -/
def Channel.clear (c : Channel α) : Channel α :=
  { c with queue := [] }

/-- C8 counterexample: closing a channel holding one pending item does not
discard it — the queue still holds the item after `close()`, so the claim
that close empties the queue is false (only `clear()` empties). -/
theorem c8_counterexample :
    (Channel.close (Channel.enqueue (Channel.new : Channel Nat) 7)).queue = [7] ∧
    ([7] : List Nat) ≠ [] := by
  exact ⟨rfl, by decide⟩

/-- C8 (amended): `close()` sets the closed flag and leaves the pending items
in place (they become unreachable: every later dequeue returns none and every
later enqueue is a no-op, and the items are freed only when the channel is
dropped); `clear()` empties the queue without closing. -/
theorem c8_close_semantics {α : Type} (c : Channel α) (v : α) :
    (c.close).closed = true ∧
    (c.close).queue = c.queue ∧
    (c.close).dequeue = (DequeueRes.closedNone, c.close) ∧
    (c.close).enqueue v = c.close ∧
    (c.clear).queue = [] ∧
    (c.clear).closed = c.closed := by
  unfold Channel.close Channel.clear Channel.enqueue Channel.dequeue
  by_cases h : c.closed <;> simp [h]

/-! ## Suspender / Resumer

Transcribed from `src/shared/suspender.rs` (`Inner`, states `Initial /
Notified / Suspended`) and `src/executors/suspender.rs` (`Inner`, states
`Empty / Notified / Suspended`).  `suspend()` is modeled as a function from
the state at entry to the state at return: `none` models the `panic` on an
already-`Suspended` suspender.  Where the source blocks on the condition
variable, the wait can end only after a `resume()` call, the sole transition
that moves the state off `Suspended`; the post-wake state is therefore the
state `resume` leaves behind. -/

/-- States of the shared suspender (src/shared/suspender.rs). -/
inductive SuspenderState where
  | initial
  | notified
  | suspended
  deriving DecidableEq

/-- Models `Inner::resume` of src/shared/suspender.rs: `Initial → Notified`
(store only), `Suspended → Notified` plus `notify_one` (the `Bool`),
`Notified` untouched. -/
def sharedResume : SuspenderState → SuspenderState × Bool
  | .initial => (.notified, false)
  | .suspended => (.notified, true)
  | .notified => (.notified, false)

/-- Models `Inner::suspend` of src/shared/suspender.rs: from `Initial` the state is
set to `Suspended` and the thread waits while the state is `Suspended`; the
wait ends when `resume` runs, leaving `(sharedResume .suspended).1 =
.notified`, and the function returns **without** writing the state again.
From `Notified` the notification is consumed (state set to `Initial`).
From `Suspended` the source panics. -/
def sharedSuspend : SuspenderState → Option SuspenderState
  | .initial => some (sharedResume .suspended).1
  | .notified => some .initial
  | .suspended => none

/-- States of the executors suspender (src/executors/suspender.rs). -/
inductive ESuspenderState where
  | empty
  | notified
  | suspended
  deriving DecidableEq

/-- Models `Inner::resume` of src/executors/suspender.rs: any state other than
`Notified` is set to `Notified` with a `notify_one`. -/
def execResume : ESuspenderState → ESuspenderState × Bool
  | .notified => (.notified, false)
  | _ => (.notified, true)

/-- Models `Inner::suspend` of src/executors/suspender.rs: from `Empty` the state is
set to `Suspended`, the thread waits while `Suspended` (the wake leaves
`(execResume .suspended).1 = .notified`), and then the source resets
`*lock = State::Empty` before returning.  From `Notified` the state is set to
`Empty` and the call returns at once.  From `Suspended` the source panics. -/
def execSuspend : ESuspenderState → Option ESuspenderState
  | .empty => some .empty
  | .notified => some .empty
  | .suspended => none

/-- C6 counterexample: for the shared suspender
(src/shared/suspender.rs — the one bound thread-locally for the worker's
`WAKER_PAIR`), a `suspend()` that blocked and was then woken returns with the
state still `Notified`, not `Initial`; consequently the next `suspend()` with
no intervening `resume()` takes the `Notified` branch and returns
immediately instead of blocking. -/
theorem c6_counterexample :
    sharedSuspend SuspenderState.initial = some SuspenderState.notified ∧
    SuspenderState.notified ≠ SuspenderState.initial ∧
    sharedSuspend SuspenderState.notified = some SuspenderState.initial := by
  refine ⟨rfl, by decide, rfl⟩

/-- C6 (amended): the executors suspender always returns from `suspend()`
with the state reset to `Empty` (the `Initial` analogue), as the claim says;
the shared suspender resets only on the `Notified`-consuming path, while a
`suspend()` woken from the condition-variable wait returns with the state
left at `Notified`, so there a subsequent `suspend()` returns immediately. -/
theorem c6_suspend_return_state (s : ESuspenderState) (h : s ≠ ESuspenderState.suspended) :
    execSuspend s = some ESuspenderState.empty ∧
    sharedSuspend SuspenderState.notified = some SuspenderState.initial ∧
    sharedSuspend SuspenderState.initial = some SuspenderState.notified := by
  refine ⟨?_, rfl, rfl⟩
  cases s with
  | empty => rfl
  | notified => rfl
  | suspended => exact absurd rfl h

/-- Witness for the amended C6 theorem at the concrete state `Empty`. -/
theorem c6_suspend_return_state_witness :
    execSuspend ESuspenderState.empty = some ESuspenderState.empty ∧
    sharedSuspend SuspenderState.notified = some SuspenderState.initial ∧
    sharedSuspend SuspenderState.initial = some SuspenderState.notified :=
  c6_suspend_return_state ESuspenderState.empty (by decide)

/-! ## Task (erased pollable unit)

Transcribed from `src/async_runtime/task.rs`.  The erased future behind the
raw pointer is modeled abstractly as `fut : Nat → Bool`, giving the
`is_ready` outcome of its `n`-th poll; the `polls` field is the ghost count
of how many times the future's `poll` has been invoked.  The spin-wait on the
`poll_check` latch is modeled by `Option`: on a sequential state the CAS
`0 → 1` succeeds exactly when the latch is free, and a call that finds the
latch held spins without returning (`none`). -/

/-- Models `Task`'s `Inner` control block: `poll_check` latch, `complete` and
`cancelled` flags, plus the ghost poll counter for the erased future. -/
structure TaskState where
  pollCheck : Nat
  complete : Bool
  cancelled : Bool
  polls : Nat
  deriving DecidableEq

/-- Models `Inner::new`: latch 0, flags false, future not yet polled. -/
def TaskState.new : TaskState := ⟨0, false, false, 0⟩

/-- Models `Task::poll_task`: spin until the latch CAS `0 → 1` succeeds, then
unconditionally poll the erased future; if the result is ready, store
`complete = true`; release the latch and return the poll result.  There is no
check of `complete` between acquiring the latch and polling. -/
def pollTask (fut : Nat → Bool) (s : TaskState) : Option (Bool × TaskState) :=
  if s.pollCheck ≠ 0 then none
  else
    let ready := fut s.polls
    let s1 : TaskState := { s with pollCheck := 1, polls := s.polls + 1 }
    let s2 := if ready then { s1 with complete := true } else s1
    some (ready, { s2 with pollCheck := 0 })

/-- C4 counterexample: polling the always-ready future once from a fresh task
completes it (`complete = true`, one poll); a second `poll_task` call then
acquires the free latch and polls the future again (the ghost counter rises
to 2) instead of backing off — the future *is* polled after `completed` is
true. -/
theorem c4_counterexample :
    pollTask (fun _ => true) TaskState.new = some (true, ⟨0, true, false, 1⟩) ∧
    pollTask (fun _ => true) ⟨0, true, false, 1⟩ = some (true, ⟨0, true, false, 2⟩) := by
  exact ⟨rfl, rfl⟩

/-- C4 (amended): `poll_task` performs no completion check after taking the
latch — every `poll_task` call that returns polls the underlying future
exactly once more, even when `completed` was already true; the `completed`
flag itself stays true (it is only ever stored `true`). -/
theorem c4_poll_after_complete (fut : Nat → Bool) (s : TaskState) (r : Bool)
    (s2 : TaskState) (hc : s.complete = true)
    (h : pollTask fut s = some (r, s2)) :
    s2.polls = s.polls + 1 ∧ s2.complete = true := by
  unfold pollTask at h
  by_cases hp : s.pollCheck ≠ 0
  · simp [hp] at h
  · simp only [hp, if_false] at h
    by_cases hr : fut s.polls
    · simp [hr] at h
      rw [← h.2]
      exact ⟨rfl, rfl⟩
    · simp [hr] at h
      rw [← h.2]
      exact ⟨rfl, hc⟩

/-- Witness for the amended C4 theorem: the second call of the
counterexample, on the already-completed state. -/
theorem c4_poll_after_complete_witness :
    (⟨0, true, false, 2⟩ : TaskState).polls = (⟨0, true, false, 1⟩ : TaskState).polls + 1 ∧
    (⟨0, true, false, 2⟩ : TaskState).complete = true :=
  c4_poll_after_complete (fun _ => true) ⟨0, true, false, 1⟩ true ⟨0, true, false, 2⟩ rfl rfl

/-! ## AsyncStream (FIFO result stream)

Transcribed from `src/async_stream/stream.rs` and the second variant in
`src/async_stream/mod.rs`.  State: the `item_count` atomic (`usize`, so
`fetch_sub` wraps at `2^64`), the `VecDeque` buffer, and whether a waker is
registered in the one-slot `wakers`/`waker` field (the waker's identity does
not matter to the claims, only its presence).  The `async` lock acquisition
always succeeds in the sequential model, so the lock-unavailable `Pending`
path of `poll_next` does not arise. -/

/-- Outcome of one `Stream::poll_next` call: `terminal` is
`Poll::Ready(None)` (from `Stages::Empty`), `pending` is `Poll::Pending`
(from `Stages::Wait`, waker registered), `ready x` is
`Poll::Ready(Some(x))`. -/
inductive PollRes (α : Type) where
  | terminal : PollRes α
  | pending : PollRes α
  | ready : α → PollRes α
  deriving DecidableEq

/-- Models `Inner<ItemType>` state of the async stream. -/
structure StreamState (α : Type) where
  itemCount : Nat
  buffer : List α
  wakerSet : Bool
  deriving DecidableEq

/-- Models `AsyncStream::new()`. -/
def streamNew (α : Type) : StreamState α := ⟨0, [], false⟩

/-- Models `AsyncStream::insert_item`: lock, `push_back`, `take()` the registered
waker (leaving the slot empty) and wake it if present. -/
def insertItem (s : StreamState α) (v : α) : StreamState α :=
  { s with buffer := s.buffer ++ [v], wakerSet := false }

/-- Models `AsyncStream::increment`: `fetch_add(1)` on `item_count`. -/
def incrementCount (s : StreamState α) : StreamState α :=
  { s with itemCount := (s.itemCount + 1) % USIZE_MOD }

/-- Wrapping `fetch_sub(1)` on a `usize`. -/
def usizeDec (n : Nat) : Nat := if n = 0 then USIZE_MOD - 1 else n - 1

/-- Models `AsyncStream::poll_item` of src/async_stream/stream.rs: an early
`item_count == 0` check returns `Stages::Empty` **without looking at the
buffer**; otherwise under the lock the count-and-buffer emptiness is
re-checked, then `pop_front` either yields the front item (decrementing
`item_count`) or registers the waker and reports `Wait`. -/
def pollItem (s : StreamState α) : PollRes α × StreamState α :=
  if s.itemCount = 0 then (.terminal, s)
  else if s.itemCount = 0 ∧ s.buffer.isEmpty then (.terminal, s)
  else
    match s.buffer with
    | [] => (.pending, { s with wakerSet := true })
    | x :: rest => (.ready x, { s with itemCount := usizeDec s.itemCount, buffer := rest })

/-- Models `AsyncStream::poll` of src/async_stream/mod.rs: same as `poll_item` but
with only the joint check `item_count == 0 && buffer.is_empty()` and no early
count-only return. -/
def pollStreamMod (s : StreamState α) : PollRes α × StreamState α :=
  if s.itemCount = 0 ∧ s.buffer.isEmpty then (.terminal, s)
  else
    match s.buffer with
    | [] => (.pending, { s with wakerSet := true })
    | x :: rest => (.ready x, { s with itemCount := usizeDec s.itemCount, buffer := rest })

/-- Models `AsyncStream::first` of src/async_stream/stream.rs: `None` if the buffer
is empty or `item_count` is 0, else `pop_front` plus `fetch_sub`. -/
def firstItem (s : StreamState α) : Option α × StreamState α :=
  if s.buffer.isEmpty ∨ s.itemCount = 0 then (none, s)
  else
    match s.buffer with
    | [] => (none, s)
    | x :: rest => (some x, { s with itemCount := usizeDec s.itemCount, buffer := rest })

/-- C2 counterexample: insert one item into a fresh stream without a matching
`increment` — the buffer is non-empty, yet `poll_item` (hence `poll_next`)
returns the terminal `Ready(None)` because of the early count-only check,
instead of yielding the front buffered item. -/
theorem c2_counterexample :
    (pollItem (insertItem (streamNew Nat) 42)).1 = PollRes.terminal ∧
    (insertItem (streamNew Nat) 42).buffer = [42] := by
  exact ⟨rfl, rfl⟩

/-- C2 (amended): for the `poll` of src/async_stream/mod.rs the claim holds
unconditionally: terminal exactly when the counter is 0 and the buffer is
empty, and a non-empty buffer always yields its front item.  For the
`poll_item` of src/async_stream/stream.rs the same holds **provided** the
outstanding counter is at least the buffer length (as is the case when every
buffered item was preceded by a matching `increment`); at counter 0 with a
non-empty buffer, `poll_item` instead returns terminal. -/
theorem c2_terminal_iff_drained {α : Type} (s : StreamState α)
    (hinv : s.buffer.length ≤ s.itemCount) :
    ((pollItem s).1 = PollRes.terminal ↔ s.itemCount = 0 ∧ s.buffer = []) ∧
    (∀ x rest, s.buffer = x :: rest → (pollItem s).1 = PollRes.ready x) ∧
    (∀ t : StreamState α,
      ((pollStreamMod t).1 = PollRes.terminal ↔ t.itemCount = 0 ∧ t.buffer = []) ∧
      (∀ x rest, t.buffer = x :: rest → (pollStreamMod t).1 = PollRes.ready x)) := by
  refine ⟨?_, ?_, ?_⟩
  · by_cases hc : s.itemCount = 0
    · have hb : s.buffer = [] := by
        rw [hc] at hinv
        exact List.eq_nil_of_length_eq_zero (Nat.le_zero.mp hinv)
      simp [pollItem, hc, hb]
    · cases hb : s.buffer with
      | nil => simp [pollItem, hc, hb]
      | cons x rest => simp [pollItem, hc, hb]
  · intro x rest hb
    have hc : s.itemCount ≠ 0 := by
      intro hc0
      rw [hc0, hb] at hinv
      simp at hinv
    simp [pollItem, hc, hb]
  · intro t
    constructor
    · by_cases hc : t.itemCount = 0
      · cases hb : t.buffer with
        | nil => simp [pollStreamMod, hc, hb]
        | cons x rest => simp [pollStreamMod, hc, hb]
      · cases hb : t.buffer with
        | nil => simp [pollStreamMod, hc, hb]
        | cons x rest => simp [pollStreamMod, hc, hb]
    · intro x rest hb
      have hc : ¬(t.itemCount = 0 ∧ t.buffer.isEmpty = true) := by
        rw [hb]
        simp
      simp [pollStreamMod, hc, hb]

/-- Witness for the amended C2 theorem at a stream holding one outstanding,
already-buffered item. -/
theorem c2_terminal_iff_drained_witness :
    (pollItem (⟨1, [5], false⟩ : StreamState Nat)).1 = PollRes.ready 5 :=
  (c2_terminal_iff_drained (⟨1, [5], false⟩ : StreamState Nat) (by decide)).2.1 5 [] rfl

/-! ## Operation traces of the stream (for the FIFO claim) -/

/-- One externally invokable operation of the stream of
src/async_stream/stream.rs. -/
inductive StreamOp (α : Type) where
  | insert : α → StreamOp α
  | poll : StreamOp α
  | firstCall : StreamOp α
  | increment : StreamOp α

/-- Run one operation; the second component is the item the operation yielded
to the consumer, if any. -/
def stepOp (s : StreamState α) : StreamOp α → StreamState α × Option α
  | .insert v => (insertItem s v, none)
  | .poll =>
    let r := pollItem s
    (r.2, match r.1 with | .ready v => some v | _ => none)
  | .firstCall =>
    let r := firstItem s
    (r.2, r.1)
  | .increment => (incrementCount s, none)

/-- Run a list of operations, collecting every yielded item in order. -/
def runOps (s : StreamState α) : List (StreamOp α) → StreamState α × List α
  | [] => (s, [])
  | op :: rest =>
    let r := stepOp s op
    let rr := runOps r.1 rest
    (rr.1, r.2.toList ++ rr.2)

/-- The items inserted by a single operation. -/
def insOf : StreamOp α → List α
  | .insert v => [v]
  | .poll => []
  | .firstCall => []
  | .increment => []

/-- The items inserted by a list of operations, in order. -/
def insertedOf : List (StreamOp α) → List α
  | [] => []
  | op :: rest => insOf op ++ insertedOf rest

lemma stepOp_buffer {α : Type} (s : StreamState α) (op : StreamOp α) :
    s.buffer ++ insOf op = (stepOp s op).2.toList ++ (stepOp s op).1.buffer := by
  cases op with
  | insert v => simp [stepOp, insertItem, insOf]
  | poll =>
    simp only [stepOp, insOf, List.append_nil]
    by_cases hc : s.itemCount = 0
    · simp [pollItem, hc]
    · cases hb : s.buffer with
      | nil => simp [pollItem, hc, hb]
      | cons x bs => simp [pollItem, hc, hb]
  | firstCall =>
    simp only [stepOp, insOf, List.append_nil]
    by_cases hc : s.buffer.isEmpty = true ∨ s.itemCount = 0
    · simp only [firstItem, if_pos hc]
      simp
    · have hc2 : ¬ s.itemCount = 0 := fun h => hc (Or.inr h)
      cases hb : s.buffer with
      | nil =>
        exact absurd (Or.inl (by rw [hb]; rfl)) hc
      | cons x bs => simp [firstItem, hc, hc2, hb]
  | increment => simp [stepOp, incrementCount, insOf]

lemma runOps_buffer_split {α : Type} (ops : List (StreamOp α)) :
    ∀ s : StreamState α,
      s.buffer ++ insertedOf ops = (runOps s ops).2 ++ (runOps s ops).1.buffer := by
  induction ops with
  | nil => intro s; simp [runOps, insertedOf]
  | cons op rest ih =>
    intro s
    calc s.buffer ++ insertedOf (op :: rest)
        = (s.buffer ++ insOf op) ++ insertedOf rest := by
          simp [insertedOf, List.append_assoc]
      _ = ((stepOp s op).2.toList ++ (stepOp s op).1.buffer) ++ insertedOf rest := by
          rw [stepOp_buffer]
      _ = (stepOp s op).2.toList ++ ((stepOp s op).1.buffer ++ insertedOf rest) := by
          rw [List.append_assoc]
      _ = (stepOp s op).2.toList ++
            ((runOps (stepOp s op).1 rest).2 ++ (runOps (stepOp s op).1 rest).1.buffer) := by
          rw [ih]
      _ = (runOps s (op :: rest)).2 ++ (runOps s (op :: rest)).1.buffer := by
          simp [runOps, List.append_assoc]

/-- C3: over any sequence of stream operations starting from a fresh stream,
the items yielded by the successful `poll_next` and `first` calls, in order,
are exactly the inserted items in insertion order with the still-buffered
suffix removed — i.e. the yields are an initial segment (FIFO) of the
insertion sequence, and concatenating them with the remaining buffer
reconstructs the full insertion sequence. -/
theorem c3_fifo_insertion_order {α : Type} (ops : List (StreamOp α)) :
    insertedOf ops = (runOps (streamNew α) ops).2 ++ (runOps (streamNew α) ops).1.buffer ∧
    (runOps (streamNew α) ops).2 =
      (insertedOf ops).take (runOps (streamNew α) ops).2.length := by
  have h := runOps_buffer_split ops (streamNew α)
  simp only [streamNew] at h
  constructor
  · simpa using h
  · have h2 : insertedOf ops = (runOps (streamNew α) ops).2 ++ (runOps (streamNew α) ops).1.buffer := by
      simpa using h
    rw [h2, List.take_left]

/-! ## Group façade flags

Transcribed from the constructors in `src/err_spawn_group.rs`,
`src/discarding_spawn_group.rs` and `src/spawn_group.rs`.  Only the two
boolean fields are modeled; the `count` atomic and the `RuntimeEngine` (live
threads) are elided. -/

/-- The two booleans owned by every group façade. -/
structure GroupFlags where
  isCancelled : Bool
  waitAtDrop : Bool
  deriving DecidableEq

/-- Models `ErrSpawnGroup::new(num_of_threads)` (src/err_spawn_group.rs):
`is_cancelled: false, wait_at_drop: false`. -/
def errSpawnGroupNew (_numOfThreads : Nat) : GroupFlags :=
  { isCancelled := false, waitAtDrop := false }

/-- Models `DiscardingSpawnGroup::new(num_of_threads)`
(src/discarding_spawn_group.rs): `is_cancelled: false, wait_at_drop: false`. -/
def discardingSpawnGroupNew (_numOfThreads : Nat) : GroupFlags :=
  { isCancelled := false, waitAtDrop := false }

/-- Models `Initializible::init` for `SpawnGroup` (src/spawn_group.rs), the
constructor used by the scoped `with_*` entry points via `default()`:
`is_cancelled: false, wait_at_drop: true`. -/
def spawnGroupInitFlags : GroupFlags :=
  { isCancelled := false, waitAtDrop := true }

/-- Models `SpawnGroup::new()` just delegates to `Self::init()`. -/
def spawnGroupNew : GroupFlags := spawnGroupInitFlags

/-- Models `Initializible::init` for `DiscardingSpawnGroup`
(src/discarding_spawn_group.rs): `is_cancelled: false, wait_at_drop: true`. -/
def discardingSpawnGroupInitFlags : GroupFlags :=
  { isCancelled := false, waitAtDrop := true }

/-- C7: the groups built by the scoped entry points (through
`Initializible::init`) do start with `is_cancelled = false` and
`wait_at_drop = true`, but the public `new(num_of_threads)` constructors of
the error and discarding groups start with `wait_at_drop = false` — contrary
to the claim (and to the structs' own doc comments, which promise an
implicit wait on drop unless `dont_wait_at_drop()` is called). -/
theorem c7_new_does_not_wait_on_drop :
    (errSpawnGroupNew 4).isCancelled = false ∧
    (errSpawnGroupNew 4).waitAtDrop = false ∧
    (discardingSpawnGroupNew 4).isCancelled = false ∧
    (discardingSpawnGroupNew 4).waitAtDrop = false ∧
    spawnGroupNew = { isCancelled := false, waitAtDrop := true } ∧
    spawnGroupInitFlags.waitAtDrop = true ∧
    discardingSpawnGroupInitFlags.waitAtDrop = true := by
  exact ⟨rfl, rfl, rfl, rfl, rfl, rfl, rfl⟩

end SpawnGroups
